import Mathlib

/-!
Verification of the cycle-segmentation core of the formation-cycle plotter.

The Python sources `src/data_loader.py` and `src/plotter.py` are shallowly
embedded below: the loaded data frame is a list of rows of rationals together
with the detected index of the current column; pandas/NumPy operations are
translated to explicit list scans; a Python `ValueError` raised by the loader
becomes `none`, and the errors of the cycle-specification parser become an
explicit error type.
-/

/-- Python `str.lower` for the ASCII header and specification strings handled
here. -/
def pyLower (s : String) : String := ⟨s.data.map Char.toLower⟩

/-- Python `str.strip`: drop leading and trailing whitespace. -/
def pyStrip (s : String) : String :=
  ⟨((s.data.dropWhile Char.isWhitespace).reverse.dropWhile Char.isWhitespace).reverse⟩

/-- Does the second list begin with the first? -/
def beginsWith : List Char → List Char → Bool
  | [], _ => true
  | _ :: _, [] => false
  | p :: ps, c :: cs => p == c && beginsWith ps cs

/-- Python `str.startswith`. -/
def pyStartsWith (s pre : String) : Bool := beginsWith pre.data s.data

/-- Python substring containment `pat in col`, on character lists. -/
def listContains (pat : List Char) : List Char → Bool
  | [] => pat.isEmpty
  | c :: cs => beginsWith pat (c :: cs) || listContains pat cs

/-- Python `pat in col` on strings. -/
def strContains (pat col : String) : Bool := listContains pat.data col.data

/-- Python `str.split()` with no separator: split on whitespace runs and drop
the empty pieces. -/
def pySplitWs (s : String) : List String :=
  ((s.data.splitOnP Char.isWhitespace).filter (fun cs => !cs.isEmpty)).map
    (fun cs => (⟨cs⟩ : String))

/-- Value of a digits-only token, `none` if empty or not all digits (the body
of Python `int`). -/
def digitsVal? (cs : List Char) : Option Nat :=
  match cs with
  | [] => none
  | _ =>
    if cs.all (fun c => c.isDigit) then
      some (cs.foldl (fun a c => a * 10 + (c.toNat - 48)) 0)
    else none

/-- Python `int(s)` on an ASCII token: optional sign followed by one or more
digits; `none` models the raised `ValueError` (underscore grouping and
non-ASCII digits are not modelled). -/
def pyInt? (s : String) : Option Int :=
  match s.data with
  | '-' :: rest => (digitsVal? rest).map (fun n => -(n : Int))
  | '+' :: rest => (digitsVal? rest).map (fun n => (n : Int))
  | cs => (digitsVal? cs).map (fun n => (n : Int))

/-- The loaded data frame of `FormationCycleData`: the numeric rows plus the
detected (zero-based) index of the current column. -/
structure Table where
  rows : List (List ℚ)
  currentIdx : Nat
  deriving DecidableEq

/-- The current column `df.iloc[:, current_idx]` (a short row reads 0). -/
def Table.current (t : Table) : List ℚ := t.rows.map (fun r => r.getD t.currentIdx 0)

/-- The default detection threshold `1e-6`. -/
def defaultThreshold : ℚ := mkRat 1 1000000

/-- Index of the first element satisfying `p`: `mask.idxmax()` on a boolean
mask that is somewhere true, `none` when the mask is all-false. -/
def firstIdx? (p : α → Bool) : List α → Option Nat
  | [] => none
  | x :: xs => if p x then some 0 else (firstIdx? p xs).map (· + 1)

/-- `np.sign` on an exact numeric value. -/
def npSign (x : ℚ) : Int := if 0 < x then 1 else if x < 0 then -1 else 0

/-- First row whose absolute current exceeds the threshold
(`non_zero_mask.idxmax()` guarded by `non_zero_mask.any()`). -/
def firstActive (cur : List ℚ) (threshold : ℚ) : Option Nat :=
  firstIdx? (fun x => decide (threshold < |x|)) cur

/-- The indices `i + 1` appended for `i` in `range(first_nonzero, len - 1)`
whenever the sign of the current differs between rows `i` and `i + 1`. -/
def signChangeMids (cur : List ℚ) (first : Nat) : List Nat :=
  (List.range' first (cur.length - 1 - first)).filterMap
    (fun i => if npSign (cur.getD i 0) ≠ npSign (cur.getD (i + 1) 0) then some (i + 1) else none)

/-- The full `sign_change_indices` list built by `get_cycles`: the first
active row, the sign-change indices, then unconditionally `len(df) - 1`. -/
def boundaryList (cur : List ℚ) (first : Nat) : List Nat :=
  first :: (signChangeMids cur first ++ [cur.length - 1])

/-- Pair consecutive boundaries into `(start_idx, end_idx)` tuples. -/
def cyclePairs (b : List Nat) : List (Nat × Nat) := b.zip b.tail

/-- The boundary list of `FormationCycleData.get_cycles`; `none` models the
raised "No non-zero current" `ValueError`. -/
def boundaries (t : Table) (threshold : ℚ) : Option (List Nat) :=
  (firstActive t.current threshold).map (boundaryList t.current)

/-- `FormationCycleData.get_cycles`. -/
def get_cycles (t : Table) (threshold : ℚ) : Option (List (Nat × Nat)) :=
  (boundaries t threshold).map cyclePairs

/-- Mean of `df.iloc[s:e, current_idx]`; `none` models pandas returning `NaN`
on an empty slice. -/
def cycleMean (cur : List ℚ) (s e : Nat) : Option ℚ :=
  let slice := (cur.drop s).take (e - s)
  if slice.isEmpty then none else some (slice.sum / (slice.length : ℚ))

/-- The `avg_current < 0` test of `get_discharge_charge_cycles`; `NaN < 0` is
false in Python, hence `none ↦ false`. -/
def isDischarge (cur : List ℚ) (p : Nat × Nat) : Bool :=
  match cycleMean cur p.1 p.2 with
  | none => false
  | some m => decide (m < 0)

/-- `FormationCycleData.get_discharge_charge_cycles`: the loop appends each
cycle to exactly one of the two lists, preserving order. -/
def get_discharge_charge_cycles (t : Table) (threshold : ℚ) :
    Option (List (Nat × Nat) × List (Nat × Nat)) :=
  (get_cycles t threshold).map (fun cycles =>
    (cycles.filter (isDischarge t.current),
     cycles.filter (fun p => !isDischarge t.current p)))

/-- `FormationCycleData.trim_to_first_cycle`: a no-op when the mask is
all-false, otherwise drop the rows before the first active one. -/
def trim_to_first_cycle (t : Table) : Table :=
  match firstActive t.current defaultThreshold with
  | none => t
  | some first => { t with rows := t.rows.drop first }

/-- `FormationCycleData.get_cycle_data`; `none` models the raised
"Invalid cycle number" `ValueError`. -/
def get_cycle_data (t : Table) (cycle_num : Int) : Option (Nat × Nat) :=
  match get_cycles t defaultThreshold with
  | none => none
  | some cycles =>
      if cycle_num < 1 ∨ (cycles.length : Int) < cycle_num then none
      else some (cycles.getD (cycle_num - 1).toNat (0, 0))

/-- `FormationCycleData.COLUMN_PATTERNS`, in dict insertion order. -/
def COLUMN_PATTERNS : List (String × List String) :=
  [("cycle", ["cycle", "cycle number"]),
   ("time", ["time", "time/s", "time (s)"]),
   ("potential", ["ewe", "potential", "e/v", "potential (v)", "ewe/v"]),
   ("capacity", ["capacity", "q charge", "capacity/ma.h", "capacity (mah)"]),
   ("current", ["i", "current", "i/ma", "current (ma)", "i/mA"])]

/-- The column scan of `_auto_detect_columns` for one canonical field: headers
left to right (`enumerate`), each tried against every pattern of the field
(`break` on the first pattern hit, then `break` out of the column loop). -/
def detectFieldAux (patterns : List String) : List String → Nat → Option Nat
  | [], _ => none
  | col :: rest, i =>
      if patterns.any (fun pattern => strContains (pyLower pattern) col) then some i
      else detectFieldAux patterns rest (i + 1)

/-- The stripped, lower-cased header row `df_columns`. -/
def prepHeaders (headers : List String) : List String :=
  headers.map (fun h => pyLower (pyStrip h))

/-- `FormationCycleData._auto_detect_columns`: the resulting `column_mapping`
as an association list in canonical-field order. -/
def auto_detect_columns (headers : List String) : List (String × Nat) :=
  let df_columns := prepHeaders headers
  COLUMN_PATTERNS.filterMap
    (fun fp => (detectFieldAux fp.2 df_columns 0).map (fun i => (fp.1, i)))

/-- The required-field validation at the end of `_auto_detect_columns`;
`.error missing` models the raised `ValueError` naming the missing fields. -/
def auto_detect_valid (headers : List String) : Except (List String) (List (String × Nat)) :=
  let m := auto_detect_columns headers
  let missing := (["time", "potential", "capacity", "current"]).filter
    (fun c => (m.lookup c).isNone)
  if missing.isEmpty then .ok m else .error missing

/-- Modelled from the spec: the §4.1 wording of the resolution algorithm, for
comparison with `detectFieldAux` — iterate the field's pattern list first and
scan the headers once per pattern. -/
def specResolveField (patterns : List String) (cols : List String) : Option Nat :=
  match patterns with
  | [] => none
  | p :: rest =>
      match firstIdx? (fun col => strContains (pyLower p) col) cols with
      | some i => some i
      | none => specResolveField rest cols

/-- The errors that can escape `FormationCyclePlotter._parse_cycle_input`. -/
inductive ParseErr
  | invalidDischargeFormat (input : String)
  | invalidChargeFormat (input : String)
  | invalidCycleFormat (input : String)
  deriving DecidableEq

/-- Result of `_parse_cycle_input`: Python `None` (plot every cycle) or a list
of 1-indexed cycle numbers. -/
inductive CycleSel
  | all
  | indices (l : List Int)
  deriving DecidableEq

/-- `FormationCyclePlotter._parse_cycle_input`.  The `try/except` blocks are
translated as written: the range `ValueError`s raised inside them are caught
by their own `except` clause and re-raised as format errors, and the
`if len(parts) == 2` bodies fall through to Python's implicit `return None`
when the guard fails or when the linear scan finds no matching range. -/
def parse_cycle_input (cycle_input : String) (data : Table) : Except ParseErr CycleSel :=
  if cycle_input = "" ∨ pyLower cycle_input = "all" then .ok .all
  else
    let s := pyStrip (pyLower cycle_input)
    if pyStartsWith s "discharge" then
      let parts := pySplitWs s
      if parts.length = 2 then
        match pyInt? (parts.getD 1 "") with
        | none => .error (.invalidDischargeFormat s)
        | some discharge_num =>
          match get_discharge_charge_cycles data defaultThreshold with
          | none => .error (.invalidDischargeFormat s)
          | some (discharge_cycles, _) =>
            if 1 ≤ discharge_num ∧ discharge_num ≤ (discharge_cycles.length : Int) then
              let target := discharge_cycles.getD (discharge_num - 1).toNat (0, 0)
              match get_cycles data defaultThreshold with
              | none => .error (.invalidDischargeFormat s)
              | some all_cycles =>
                match firstIdx? (fun cr => cr == target) all_cycles with
                | some idx => .ok (.indices [(idx : Int) + 1])
                | none => .ok .all
            else .error (.invalidDischargeFormat s)
      else .ok .all
    else if pyStartsWith s "charge" then
      let parts := pySplitWs s
      if parts.length = 2 then
        match pyInt? (parts.getD 1 "") with
        | none => .error (.invalidChargeFormat s)
        | some charge_num =>
          match get_discharge_charge_cycles data defaultThreshold with
          | none => .error (.invalidChargeFormat s)
          | some (_, charge_cycles) =>
            if 1 ≤ charge_num ∧ charge_num ≤ (charge_cycles.length : Int) then
              let target := charge_cycles.getD (charge_num - 1).toNat (0, 0)
              match get_cycles data defaultThreshold with
              | none => .error (.invalidChargeFormat s)
              | some all_cycles =>
                match firstIdx? (fun cr => cr == target) all_cycles with
                | some idx => .ok (.indices [(idx : Int) + 1])
                | none => .ok .all
            else .error (.invalidChargeFormat s)
      else .ok .all
    else
      match pyInt? s with
      | some cycle_num => .ok (.indices [cycle_num])
      | none => .error (.invalidCycleFormat s)

/-- The cycle-index resolution of `plot_single_file` (lines 154–159): `None`
plots every cycle; explicit indices are bounds-filtered and shifted to
0-based, silently dropping out-of-range entries. -/
def cycleRangeList (sel : CycleSel) (numCycles : Nat) : List Nat :=
  match sel with
  | .all => List.range numCycles
  | .indices l =>
      l.filterMap (fun idx =>
        if 1 ≤ idx ∧ idx ≤ (numCycles : Int) then some (idx - 1).toNat else none)

/-- The scenario table of §8: current sequence `[0, 0, 1, 1, -1, -1, -1, 2]`
in a one-column frame. -/
def exTable : Table := ⟨[[0], [0], [1], [1], [-1], [-1], [-1], [2]], 0⟩

/-- A table whose current column never exceeds the threshold. -/
def zeroTable : Table := ⟨[[0], [0]], 0⟩

deriving instance DecidableEq for Except

theorem firstIdx?_lt_length {α : Type _} {p : α → Bool} :
    ∀ {l : List α} {i : Nat}, firstIdx? p l = some i → i < l.length
  | [], i, h => by simp [firstIdx?] at h
  | x :: xs, i, h => by
    rw [firstIdx?] at h
    split at h
    · cases h; simp only [List.length_cons]; omega
    · simp only [Option.map_eq_some'] at h
      obtain ⟨j, hj, rfl⟩ := h
      have := firstIdx?_lt_length hj
      simp only [List.length_cons]
      omega

theorem firstIdx?_eq_none {α : Type _} {p : α → Bool} :
    ∀ {l : List α}, (∀ x ∈ l, p x = false) → firstIdx? p l = none
  | [], _ => rfl
  | x :: xs, h => by
    rw [firstIdx?, h x (by simp), firstIdx?_eq_none (fun y hy => h y (List.mem_cons_of_mem x hy))]
    rfl

theorem filter_length_add {α : Type _} (p : α → Bool) :
    ∀ l : List α, (l.filter p).length + (l.filter (fun a => !p a)).length = l.length
  | [] => rfl
  | x :: l => by
    have ih := filter_length_add p l
    rw [List.filter_cons, List.filter_cons]
    cases hpx : p x with
    | true => simp [hpx]; omega
    | false => simp [hpx]; omega

theorem cyclePairs_cons₂ (x y : Nat) (l : List Nat) :
    cyclePairs (x :: y :: l) = (x, y) :: cyclePairs (y :: l) := rfl

theorem cyclePairs_getElem? :
    ∀ (b : List Nat) (i : Nat) (pq : Nat × Nat),
      (cyclePairs b)[i]? = some pq → b[i]? = some pq.1 ∧ b[i + 1]? = some pq.2
  | [], i, pq, h => by simp [cyclePairs] at h
  | [x], i, pq, h => by simp [cyclePairs] at h
  | x :: y :: l, 0, pq, h => by
    rw [cyclePairs_cons₂] at h
    simp only [List.getElem?_cons_zero, Option.some.injEq] at h
    subst h
    simp
  | x :: y :: l, i + 1, pq, h => by
    rw [cyclePairs_cons₂] at h
    rw [List.getElem?_cons_succ] at h
    have ih := cyclePairs_getElem? (y :: l) i pq h
    exact ⟨by rw [List.getElem?_cons_succ]; exact ih.1,
           by rw [List.getElem?_cons_succ]; exact ih.2⟩

theorem pairwise_le_getElem? :
    ∀ {b : List Nat}, b.Pairwise (· ≤ ·) → ∀ (i j v w : Nat),
      i ≤ j → b[i]? = some v → b[j]? = some w → v ≤ w := by
  intro b
  induction b with
  | nil => intro _ i j v w _ hv _; simp at hv
  | cons x l ih =>
    intro h i j v w hij hv hw
    cases i with
    | zero =>
      cases j with
      | zero => simp at hv hw; omega
      | succ j =>
        simp only [List.getElem?_cons_zero, Option.some.injEq] at hv
        rw [List.getElem?_cons_succ] at hw
        have hwmem : w ∈ l := List.getElem?_mem hw
        have := (List.pairwise_cons.mp h).1 w hwmem
        omega
    | succ i =>
      cases j with
      | zero => omega
      | succ j =>
        rw [List.getElem?_cons_succ] at hv hw
        exact ih (List.pairwise_cons.mp h).2 i j v w (by omega) hv hw

theorem le_getLast?_of_pairwise :
    ∀ (x : Nat) (l : List Nat), (x :: l).Pairwise (· ≤ ·) →
      ∀ g : Nat, (x :: l).getLast? = some g → x ≤ g
  | x, [], _, g, hg => by simp at hg; omega
  | x, y :: l, h, g, hg => by
    rw [List.getLast?_cons_cons] at hg
    have h' := List.pairwise_cons.mp h
    exact le_trans (h'.1 y (by simp)) (le_getLast?_of_pairwise y l h'.2 g hg)

theorem cyclePairs_cover :
    ∀ (x : Nat) (l : List Nat), (x :: l).Pairwise (· ≤ ·) →
      ∀ g : Nat, (x :: l).getLast? = some g →
        ∀ r : Nat, ((∃ p ∈ cyclePairs (x :: l), p.1 ≤ r ∧ r < p.2) ↔ (x ≤ r ∧ r < g))
  | x, [], _, g, hg, r => by
    simp only [List.getLast?_singleton, Option.some.injEq] at hg
    subst hg
    constructor
    · rintro ⟨p, hp, h1, h2⟩
      simp [cyclePairs] at hp
    · rintro ⟨h1, h2⟩
      omega
  | x, y :: l, h, g, hg, r => by
    rw [List.getLast?_cons_cons] at hg
    have h' := List.pairwise_cons.mp h
    have hxy : x ≤ y := h'.1 y (by simp)
    have hyg : y ≤ g := le_getLast?_of_pairwise y l h'.2 g hg
    have ih := cyclePairs_cover y l h'.2 g hg r
    rw [cyclePairs_cons₂]
    constructor
    · rintro ⟨p, hp, h1, h2⟩
      rcases List.mem_cons.mp hp with rfl | hp'
      · exact ⟨h1, lt_of_lt_of_le h2 hyg⟩
      · have := ih.mp ⟨p, hp', h1, h2⟩
        exact ⟨le_trans hxy this.1, this.2⟩
    · rintro ⟨hxr, hrg⟩
      by_cases hry : r < y
      · exact ⟨(x, y), List.mem_cons_self _ _, hxr, hry⟩
      · obtain ⟨p, hp, hpr⟩ := ih.mpr ⟨by omega, hrg⟩
        exact ⟨p, List.mem_cons_of_mem _ hp, hpr⟩

theorem signChangeMids_mem {cur : List ℚ} {first x : Nat}
    (hx : x ∈ signChangeMids cur first) : first < x ∧ x ≤ cur.length - 1 := by
  simp only [signChangeMids, List.mem_filterMap] at hx
  obtain ⟨i, hi, hfi⟩ := hx
  rw [List.mem_range'_1] at hi
  split at hfi
  · cases hfi; omega
  · cases hfi

theorem signChangeMids_pairwise (cur : List ℚ) (first : Nat) :
    (signChangeMids cur first).Pairwise (· < ·) := by
  unfold signChangeMids
  refine List.Pairwise.filterMap _ ?_ (List.pairwise_lt_range' _ _)
  intro a a' haa' b hb b' hb'
  simp only [Option.mem_def] at hb hb'
  split at hb
  · injection hb with hb
    split at hb'
    · injection hb' with hb'
      omega
    · cases hb'
  · cases hb

theorem boundaryList_pairwise {cur : List ℚ} {first : Nat} (h : first < cur.length) :
    (boundaryList cur first).Pairwise (· ≤ ·) := by
  unfold boundaryList
  rw [List.pairwise_cons]
  constructor
  · intro y hy
    rcases List.mem_append.mp hy with hy | hy
    · exact le_of_lt (signChangeMids_mem hy).1
    · simp only [List.mem_singleton] at hy
      omega
  · rw [List.pairwise_append]
    refine ⟨(signChangeMids_pairwise cur first).imp le_of_lt, by simp, ?_⟩
    intro a ha b hb
    simp only [List.mem_singleton] at hb
    subst hb
    exact (signChangeMids_mem ha).2

theorem boundaryList_getLast? (cur : List ℚ) (first : Nat) :
    (boundaryList cur first).getLast? = some (cur.length - 1) := by
  rw [boundaryList, ← List.cons_append, List.getLast?_concat]

theorem detectFieldAux_eq (patterns : List String) :
    ∀ (cols : List String) (n : Nat),
      detectFieldAux patterns cols n =
        (firstIdx? (fun col => patterns.any (fun pattern => strContains (pyLower pattern) col))
          cols).map (· + n)
  | [], _ => rfl
  | col :: rest, n => by
    rw [detectFieldAux, firstIdx?]
    split
    · simp
    · rw [detectFieldAux_eq patterns rest (n + 1), Option.map_map]
      have hfg : ((· + n) ∘ (· + 1) : Nat → Nat) = (· + (n + 1)) := by
        funext m
        simp only [Function.comp_apply]
        omega
      rw [hfg]

theorem detectFieldAux_zero (patterns cols : List String) :
    detectFieldAux patterns cols 0 =
      firstIdx? (fun col => patterns.any (fun pattern => strContains (pyLower pattern) col)) cols := by
  rw [detectFieldAux_eq]
  cases firstIdx? (fun col => patterns.any (fun pattern => strContains (pyLower pattern) col)) cols
  · rfl
  · simp

theorem exTable_cycles : get_cycles exTable defaultThreshold = some [(2, 4), (4, 7), (7, 7)] := by
  decide

theorem exTable_dc :
    get_discharge_charge_cycles exTable defaultThreshold =
      some ([(4, 7)], [(2, 4), (7, 7)]) := by
  have h2 : isDischarge exTable.current (4, 7) = true := by
    norm_num [isDischarge, cycleMean, Table.current, exTable]
  have h3 : isDischarge exTable.current (2, 4) = false := by
    norm_num [isDischarge, cycleMean, Table.current, exTable]
  have h4 : isDischarge exTable.current (7, 7) = false := by decide
  simp [get_discharge_charge_cycles, exTable_cycles, List.filter, h2, h3, h4]

/-- C1 counterexample: on the current sequence `[0,0,1,1,-1,-1,-1,2]` with
threshold 1e-6, `get_cycles` returns three cycles, not the two the claim
states — the final boundary `len(df) - 1 = 7` is appended even though it was
already recorded as a sign-change index, producing the degenerate cycle
`(7, 7)`. -/
theorem c1_cycles_scenario_cex :
    get_cycles exTable defaultThreshold = some [(2, 4), (4, 7), (7, 7)] ∧
    ([(2, 4), (4, 7), (7, 7)] : List (Nat × Nat)).length ≠ 2 :=
  ⟨exTable_cycles, by decide⟩

/-- C1 (amended): on `[0,0,1,1,-1,-1,-1,2]` with threshold 1e-6 the first
active row is 2, the boundary list is `[2, 4, 7, 7]`, the cycles are
`(2,4)`, `(4,7)` and the degenerate `(7,7)`; classification yields discharge
sublist `[(4,7)]` and charge sublist `[(2,4), (7,7)]` (the empty slice of
`(7,7)` has mean `NaN`, which is not `< 0`, so it lands in the charge list). -/
theorem c1_cycles_scenario_amended :
    firstActive exTable.current defaultThreshold = some 2 ∧
    boundaries exTable defaultThreshold = some [2, 4, 7, 7] ∧
    get_cycles exTable defaultThreshold = some [(2, 4), (4, 7), (7, 7)] ∧
    get_discharge_charge_cycles exTable defaultThreshold =
      some ([(4, 7)], [(2, 4), (7, 7)]) :=
  ⟨by decide, by decide, exTable_cycles, exTable_dc⟩

/-- C2 counterexample: the boundary list is not strictly increasing — on
`[0,0,1,1,-1,-1,-1,2]` it is `[2, 4, 7, 7]`, with the final boundary
duplicated. -/
theorem c2_tiling_cex :
    boundaries exTable defaultThreshold = some [2, 4, 7, 7] ∧
    ¬ List.Chain' (· < ·) [2, 4, 7, 7] :=
  ⟨by decide, by
    intro h
    rw [List.chain'_cons, List.chain'_cons, List.chain'_cons] at h
    exact absurd h.2.2.1 (by omega)⟩

/-- C2 (amended): for every Table with an active row, the boundary list is
non-decreasing (strictly increasing except that the final boundary may be
duplicated), consecutive cycles share a boundary row, the half-open cycles
tile exactly the rows from the first active row up to but excluding the last
row, and no two cycles overlap. -/
theorem c2_tiling_amended (t : Table) (th : ℚ) (first : Nat) (b : List Nat)
    (cycles : List (Nat × Nat))
    (hfa : firstActive t.current th = some first)
    (hb : boundaries t th = some b)
    (hc : get_cycles t th = some cycles) :
    List.Chain' (· ≤ ·) b ∧
    (∀ (i : Nat) (p q : Nat × Nat),
      cycles[i]? = some p → cycles[i + 1]? = some q → p.2 = q.1) ∧
    (∀ r : Nat,
      (∃ p ∈ cycles, p.1 ≤ r ∧ r < p.2) ↔ (first ≤ r ∧ r + 1 < t.current.length)) ∧
    (∀ (i j : Nat) (p q : Nat × Nat), i < j →
      cycles[i]? = some p → cycles[j]? = some q →
      ∀ r : Nat, ¬(p.1 ≤ r ∧ r < p.2 ∧ q.1 ≤ r ∧ r < q.2)) := by
  rw [boundaries, hfa, Option.map_some'] at hb
  rw [get_cycles, boundaries, hfa, Option.map_some', Option.map_some'] at hc
  injection hb with hb
  injection hc with hc
  subst hb
  subst hc
  have hflt : first < t.current.length := firstIdx?_lt_length hfa
  have hpw : (boundaryList t.current first).Pairwise (· ≤ ·) := boundaryList_pairwise hflt
  have hg : (boundaryList t.current first).getLast? = some (t.current.length - 1) :=
    boundaryList_getLast? t.current first
  refine ⟨hpw.chain', ?_, ?_, ?_⟩
  · intro i p q hp hq
    obtain ⟨-, hp2⟩ := cyclePairs_getElem? _ i p hp
    obtain ⟨hq1, -⟩ := cyclePairs_getElem? _ (i + 1) q hq
    rw [hp2] at hq1
    injection hq1
  · intro r
    have hcov := cyclePairs_cover first (signChangeMids t.current first ++ [t.current.length - 1])
      hpw (t.current.length - 1) hg r
    constructor
    · intro hex
      have := hcov.mp hex
      omega
    · intro hr
      exact hcov.mpr (by omega)
  · intro i j p q hij hp hq r
    obtain ⟨-, hp2⟩ := cyclePairs_getElem? _ i p hp
    obtain ⟨hq1, -⟩ := cyclePairs_getElem? _ j q hq
    have hle : p.2 ≤ q.1 := pairwise_le_getElem? hpw (i + 1) j p.2 q.1 (by omega) hp2 hq1
    rintro ⟨h1, h2, h3, h4⟩
    omega

/-- Witness for C2 (amended) at the scenario table. -/
theorem c2_tiling_amended_witness :
    List.Chain' (· ≤ ·) [2, 4, 7, 7] ∧
    (∀ (i : Nat) (p q : Nat × Nat),
      ([(2, 4), (4, 7), (7, 7)] : List (Nat × Nat))[i]? = some p →
      ([(2, 4), (4, 7), (7, 7)] : List (Nat × Nat))[i + 1]? = some q → p.2 = q.1) ∧
    (∀ r : Nat,
      (∃ p ∈ ([(2, 4), (4, 7), (7, 7)] : List (Nat × Nat)), p.1 ≤ r ∧ r < p.2) ↔
        (2 ≤ r ∧ r + 1 < exTable.current.length)) ∧
    (∀ (i j : Nat) (p q : Nat × Nat), i < j →
      ([(2, 4), (4, 7), (7, 7)] : List (Nat × Nat))[i]? = some p →
      ([(2, 4), (4, 7), (7, 7)] : List (Nat × Nat))[j]? = some q →
      ∀ r : Nat, ¬(p.1 ≤ r ∧ r < p.2 ∧ q.1 ≤ r ∧ r < q.2)) :=
  c2_tiling_amended exTable defaultThreshold 2 [2, 4, 7, 7] [(2, 4), (4, 7), (7, 7)]
    (by decide) (by decide) (by decide)

/-- C3 counterexample: the header row `["Ewe/V", "time/s", "Q charge/mA.h",
"I/mA"]` does not bind `current` to column 3: the first pattern `"i"` of the
`current` field already matches inside the header `"time/s"`, so `current`
is bound to column 1. -/
theorem c3_header_scenario_cex :
    (auto_detect_columns ["Ewe/V", "time/s", "Q charge/mA.h", "I/mA"]).lookup "current" =
      some 1 ∧
    (some 1 : Option Nat) ≠ some 3 :=
  ⟨by decide, by decide⟩

/-- C3 (amended): the header row `["Ewe/V", "time/s", "Q charge/mA.h",
"I/mA"]` resolves to the mapping
`{time: 1, potential: 0, capacity: 2, current: 1}` — the broad pattern `"i"`
binds `current` to the `"time/s"` column — and the required-field validation
accepts this mapping. -/
theorem c3_header_scenario_amended :
    auto_detect_columns ["Ewe/V", "time/s", "Q charge/mA.h", "I/mA"] =
      [("time", 1), ("potential", 0), ("capacity", 2), ("current", 1)] ∧
    auto_detect_valid ["Ewe/V", "time/s", "Q charge/mA.h", "I/mA"] =
      .ok [("time", 1), ("potential", 0), ("capacity", 2), ("current", 1)] :=
  ⟨by decide, by decide⟩

/-- C4 counterexample: for the header sequence `["Potential", "Ewe"]` the code
binds `potential` to column 0 (header order takes precedence), while the
claimed pattern-major algorithm would bind it to column 1 (the first pattern
`"ewe"` matches header 1 before the second pattern `"potential"` is tried). -/
theorem c4_resolver_order_cex :
    (auto_detect_columns ["Potential", "Ewe"]).lookup "potential" = some 0 ∧
    specResolveField ["ewe", "potential", "e/v", "potential (v)", "ewe/v"]
      (prepHeaders ["Potential", "Ewe"]) = some 1 ∧
    (some 0 : Option Nat) ≠ some 1 :=
  ⟨by decide, by decide, by decide⟩

/-- C4 (amended): column resolution is header-major — each canonical field is
bound to the first header, scanning left to right, whose stripped lower-cased
text contains any of the field's patterns as a substring; pattern order never
overrides header order, and each field is bound at most once. -/
theorem c4_resolver_header_major (patterns cols headers : List String) :
    detectFieldAux patterns cols 0 =
      firstIdx? (fun col => patterns.any (fun pattern => strContains (pyLower pattern) col))
        cols ∧
    auto_detect_columns headers =
      COLUMN_PATTERNS.filterMap (fun fp =>
        (firstIdx? (fun col => fp.2.any (fun pattern => strContains (pyLower pattern) col))
          (prepHeaders headers)).map (fun i => (fp.1, i))) := by
  refine ⟨detectFieldAux_zero patterns cols, ?_⟩
  rw [auto_detect_columns]
  apply List.filterMap_congr
  intro fp _
  rw [detectFieldAux_zero]

/-- C5 (code bug): on the `[0,0,1,1,-1,-1,-1,2]` table, `select("charge 2")`
does not raise a range error citing 1-1 — the degenerate cycle `(7,7)` counts
as a second charge cycle, so chronological index 3 is returned; and a truly
out-of-range request such as `"charge 3"` raises the branch's *format* error,
because the range `ValueError` raised inside the `try` block is caught by its
own `except` clause and replaced. -/
theorem c5_charge_range_bug :
    parse_cycle_input "charge 2" exTable = .ok (.indices [3]) ∧
    parse_cycle_input "charge 3" exTable = .error (.invalidChargeFormat "charge 3") := by
  constructor
  · simp only [parse_cycle_input, exTable_dc, exTable_cycles]
    decide
  · simp only [parse_cycle_input, exTable_dc, exTable_cycles]
    decide

/-- C6 (code bug): the bare-integer form is not bounds-checked on the plot
path — `"5"` parses to index 5 on a table with 3 cycles, `plot_single_file`
silently filters it to an empty plot list, while the validating
`get_cycle_data` in the same code base raises for the same input. -/
theorem c6_bare_int_silent_empty :
    parse_cycle_input "5" exTable = .ok (.indices [5]) ∧
    (get_cycles exTable defaultThreshold).map List.length = some 3 ∧
    cycleRangeList (.indices [5]) 3 = [] ∧
    get_cycle_data exTable 5 = none :=
  ⟨by decide, by decide, by decide, by decide⟩

/-- C7 counterexample: the input `"charge"` is none of the accepted forms,
yet parsing does not fail — it falls through `if len(parts) == 2` to Python's
implicit `return None` and yields the all-cycles selection. -/
theorem c7_malformed_cex : parse_cycle_input "charge" exTable = .ok .all := by
  decide

/-- C7 (amended): every specification that is not empty, not "all"
(case-insensitively), does not start with "discharge" or "charge" after
lower-casing and stripping, and is not a bare integer, fails with the format
error naming the accepted forms.  (Inputs starting with "discharge"/"charge"
that do not split into exactly two tokens instead return the all-cycles
selection.) -/
theorem c7_malformed_amended (input : String) (t : Table)
    (h1 : input ≠ "") (h2 : pyLower input ≠ "all")
    (h3 : pyStartsWith (pyStrip (pyLower input)) "discharge" = false)
    (h4 : pyStartsWith (pyStrip (pyLower input)) "charge" = false)
    (h5 : pyInt? (pyStrip (pyLower input)) = none) :
    parse_cycle_input input t = .error (.invalidCycleFormat (pyStrip (pyLower input))) := by
  rw [parse_cycle_input, if_neg (by simp [h1, h2])]
  simp only [h3, h4, h5, Bool.false_eq_true, if_false]

/-- Witness for C7 (amended) at the input `"foo"`. -/
theorem c7_malformed_amended_witness :
    parse_cycle_input "foo" exTable = .error (.invalidCycleFormat (pyStrip (pyLower "foo"))) :=
  c7_malformed_amended "foo" exTable (by decide) (by decide) (by decide) (by decide) (by decide)

/-- C8: classification partitions the cycle list into exactly two sublists,
discharge iff the mean current over the half-open range is negative
(an empty slice has no mean and lands in the charge list), the lengths sum to
the cycle count, and chronological order is preserved in both sublists. -/
theorem c8_classify_partition (t : Table) (th : ℚ) (cycles d c : List (Nat × Nat))
    (hc : get_cycles t th = some cycles)
    (hdc : get_discharge_charge_cycles t th = some (d, c)) :
    d = cycles.filter (isDischarge t.current) ∧
    c = cycles.filter (fun p => !isDischarge t.current p) ∧
    d.length + c.length = cycles.length ∧
    d.Sublist cycles ∧ c.Sublist cycles ∧
    (∀ p : Nat × Nat, p ∈ d ↔ p ∈ cycles ∧ isDischarge t.current p = true) ∧
    (∀ p : Nat × Nat, p ∈ c ↔ p ∈ cycles ∧ isDischarge t.current p = false) := by
  rw [get_discharge_charge_cycles, hc, Option.map_some'] at hdc
  injection hdc with hdc
  have hd : d = cycles.filter (isDischarge t.current) := (congrArg Prod.fst hdc).symm
  have hcc : c = cycles.filter (fun p => !isDischarge t.current p) :=
    (congrArg Prod.snd hdc).symm
  refine ⟨hd, hcc, ?_, ?_, ?_, ?_, ?_⟩
  · rw [hd, hcc]; exact filter_length_add _ _
  · rw [hd]; exact List.filter_sublist _
  · rw [hcc]; exact List.filter_sublist _
  · intro p; rw [hd, List.mem_filter]
  · intro p
    rw [hcc, List.mem_filter]
    simp only [Bool.not_eq_true']

/-- Witness for C8 at the scenario table. -/
theorem c8_classify_partition_witness :
    ([(4, 7)] : List (Nat × Nat)) =
      [(2, 4), (4, 7), (7, 7)].filter (isDischarge exTable.current) ∧
    ([(2, 4), (7, 7)] : List (Nat × Nat)) =
      [(2, 4), (4, 7), (7, 7)].filter (fun p => !isDischarge exTable.current p) ∧
    ([(4, 7)] : List (Nat × Nat)).length + ([(2, 4), (7, 7)] : List (Nat × Nat)).length =
      ([(2, 4), (4, 7), (7, 7)] : List (Nat × Nat)).length ∧
    List.Sublist [(4, 7)] [(2, 4), (4, 7), (7, 7)] ∧
    List.Sublist [(2, 4), (7, 7)] [(2, 4), (4, 7), (7, 7)] ∧
    (∀ p : Nat × Nat, p ∈ ([(4, 7)] : List (Nat × Nat)) ↔
      p ∈ ([(2, 4), (4, 7), (7, 7)] : List (Nat × Nat)) ∧
        isDischarge exTable.current p = true) ∧
    (∀ p : Nat × Nat, p ∈ ([(2, 4), (7, 7)] : List (Nat × Nat)) ↔
      p ∈ ([(2, 4), (4, 7), (7, 7)] : List (Nat × Nat)) ∧
        isDischarge exTable.current p = false) :=
  c8_classify_partition exTable defaultThreshold [(2, 4), (4, 7), (7, 7)]
    [(4, 7)] [(2, 4), (7, 7)] exTable_cycles exTable_dc

/-- C9: the empty specification and "all" (case-insensitively) select every
cycle in chronological order — the resolved plot list is `range n`, whose
1-indexed form is `[1, …, n]`. -/
theorem c9_select_all (t : Table) (s : String) (hs : pyLower s = "all") (n : Nat) :
    parse_cycle_input "" t = .ok .all ∧
    parse_cycle_input s t = .ok .all ∧
    cycleRangeList .all n = List.range n ∧
    (List.range n).map (· + 1) = List.range' 1 n := by
  refine ⟨?_, ?_, rfl, ?_⟩
  · rw [parse_cycle_input, if_pos (Or.inl rfl)]
  · rw [parse_cycle_input, if_pos (Or.inr hs)]
  · simp [List.range'_eq_map_range, Nat.add_comm]

/-- Witness for C9 at the string "ALL" and three cycles. -/
theorem c9_select_all_witness :
    parse_cycle_input "" exTable = .ok .all ∧
    parse_cycle_input "ALL" exTable = .ok .all ∧
    cycleRangeList .all 3 = List.range 3 ∧
    (List.range 3).map (· + 1) = List.range' 1 3 :=
  c9_select_all exTable "ALL" (by decide) 3

/-- C10: when no current exceeds the `1e-6` threshold in absolute value,
`trim_to_first_cycle` silently leaves the table unchanged while `get_cycles`
on the same table raises the no-activity error. -/
theorem c10_trim_noop (t : Table) (h : ∀ x ∈ t.current, |x| ≤ defaultThreshold) :
    trim_to_first_cycle t = t ∧ get_cycles t defaultThreshold = none := by
  have hfa : firstActive t.current defaultThreshold = none := by
    apply firstIdx?_eq_none
    intro x hx
    simp only [decide_eq_false_iff_not, not_lt]
    exact h x hx
  constructor
  · simp only [trim_to_first_cycle, hfa]
  · rw [get_cycles, boundaries, hfa]
    rfl

/-- Witness for C10 at the all-zero table. -/
theorem c10_trim_noop_witness :
    trim_to_first_cycle zeroTable = zeroTable ∧
    get_cycles zeroTable defaultThreshold = none :=
  c10_trim_noop zeroTable (by decide)
